import Mathlib

/-!
Verification development for the Oma Helen API client
(`helenservice/api_client.py`).

The Python source is shallowly embedded: numeric series become `List ℚ`,
timestamps become rationals (seconds), calendar dates become a `Date`
structure, fallible code returns `Option`, and the request strings built by
the time-window code are modelled as Lean `String`s mirroring the Python
f-strings.
-/

namespace HelenService

/-! ## Impact calculator (`calculate_impact_of_usage_between_dates`) -/

/-- Embeds `calculate_impact_of_usage_between_dates` (api_client.py lines
40-66), abstracted over the two fetched hourly series.  The Python code
raises `ZeroDivisionError` when `hourly_prices` is empty (the
`monthly_average_price` division) or when `total_consumption` is zero (the
final division); both are modelled as `none`. -/
def calculate_impact_of_usage_between_dates
    (hourly_prices hourly_measurements : List ℚ) : Option ℚ :=
  let length := min hourly_prices.length hourly_measurements.length
  let hourly_weighted_consumption_prices :=
    (List.range length).map
      (fun i => |hourly_prices.getD i 0| * |hourly_measurements.getD i 0|)
  if hourly_prices.length = 0 then none
  else
    let monthly_average_price :=
      (hourly_prices.map (fun price => |price|)).sum / (hourly_prices.length : ℚ)
    let total_consumption :=
      (hourly_measurements.map (fun measurement => |measurement|)).sum
    let total_hourly_weighted_consumption_prices :=
      hourly_weighted_consumption_prices.sum
    let total_consumption_average_price := monthly_average_price * total_consumption
    if total_consumption = 0 then none
    else
      some ((total_hourly_weighted_consumption_prices -
        total_consumption_average_price) / total_consumption)

/-- Spec-side view of the weighted series: elementwise
`abs(price) * abs(measurement)`, truncated to the shorter series. -/
def weightedSeries (ps ms : List ℚ) : List ℚ :=
  List.zipWith (fun p m => |p| * |m|) ps ms

/-- Spec-side view of the average price, computed over the full price
series. -/
def monthlyAveragePrice (ps : List ℚ) : ℚ :=
  (ps.map (fun p => |p|)).sum / (ps.length : ℚ)

/-- Spec-side view of the total consumption, computed over the full
measurement series. -/
def totalConsumption (ms : List ℚ) : ℚ :=
  (ms.map (fun m => |m|)).sum

/-- The Python `for i in range(length)` loop builds exactly the truncated
elementwise product series. -/
lemma weighted_loop_eq (ps ms : List ℚ) :
    (List.range (min ps.length ms.length)).map
      (fun i => |ps.getD i 0| * |ms.getD i 0|) = weightedSeries ps ms := by
  induction ps generalizing ms with
  | nil => simp [weightedSeries]
  | cons p ps ih =>
    cases ms with
    | nil => simp [weightedSeries]
    | cons m ms =>
      have hmin : min (p :: ps).length (m :: ms).length =
          min ps.length ms.length + 1 := by
        simp [Nat.succ_min_succ]
      rw [hmin, List.range_succ_eq_map]
      simp only [List.map_cons, List.map_map, weightedSeries, List.zipWith_cons_cons]
      refine congrArg₂ _ (by simp) ?_
      rw [← weightedSeries, ← ih ms]
      rfl

/-- C1: for prices [10, 20] and measurements [2, 3] (equal lengths, no
truncation) the weighted series is [20, 60], its total is 80, the monthly
average price is 15, the total consumption is 5, and the impact is exactly
(80 - 15*5)/5 = 1. -/
theorem impact_concrete_case :
    weightedSeries [10, 20] [2, 3] = [20, 60] ∧
    (weightedSeries [10, 20] [2, 3]).sum = 80 ∧
    monthlyAveragePrice [10, 20] = 15 ∧
    totalConsumption [2, 3] = 5 ∧
    calculate_impact_of_usage_between_dates [10, 20] [2, 3] = some 1 := by
  refine ⟨?_, ?_, ?_, ?_, ?_⟩ <;>
    norm_num [weightedSeries, monthlyAveragePrice, totalConsumption,
      calculate_impact_of_usage_between_dates, List.range_succ]

/-- C2: when the two series differ in length the weighted sum runs over the
first min(|prices|, |measurements|) indices only, while the average price is
taken over the full price series and the total consumption over the full
measurement series; concretely for prices [10, 20, 30] and measurements
[1, 1] the weighted series uses prices[0] and prices[1] only, the average
covers all three prices (= 20) and the total consumption both measurements
(= 2). -/
theorem impact_truncation_asymmetry :
    (∀ ps ms : List ℚ, ps.length ≠ ms.length → ps ≠ [] →
      totalConsumption ms ≠ 0 →
      calculate_impact_of_usage_between_dates ps ms =
        some (((weightedSeries ps ms).sum -
          monthlyAveragePrice ps * totalConsumption ms) / totalConsumption ms)) ∧
    weightedSeries [10, 20, 30] [1, 1] = [10, 20] ∧
    monthlyAveragePrice [10, 20, 30] = 20 ∧
    totalConsumption [1, 1] = 2 := by
  refine ⟨?_, ?_, ?_, ?_⟩
  · intro ps ms hne hps htot
    have hlen : ¬ ps.length = 0 := fun h => hps (List.length_eq_zero.mp h)
    simp only [totalConsumption] at htot
    simp only [calculate_impact_of_usage_between_dates, weighted_loop_eq,
      monthlyAveragePrice, totalConsumption, if_neg hlen, if_neg htot]
  · norm_num [weightedSeries]
  · norm_num [monthlyAveragePrice]
  · norm_num [totalConsumption]

/-- C2 witness at prices [10, 20, 30], measurements [1, 1]. -/
theorem impact_truncation_asymmetry_witness :
    calculate_impact_of_usage_between_dates [10, 20, 30] [1, 1] =
      some (((weightedSeries [10, 20, 30] [1, 1]).sum -
        monthlyAveragePrice [10, 20, 30] * totalConsumption [1, 1]) /
          totalConsumption [1, 1]) :=
  impact_truncation_asymmetry.1 [10, 20, 30] [1, 1] (by norm_num)
    (by simp) (by norm_num [totalConsumption])

/-- C3: when every measurement is zero the total consumption is zero and the
impact calculation reports the division-by-zero failure (`none`, modelling
the Python `ZeroDivisionError`) instead of silently returning a number. -/
theorem impact_zero_consumption (ps ms : List ℚ) (h : ∀ x ∈ ms, x = 0) :
    calculate_impact_of_usage_between_dates ps ms = none := by
  have htot : (ms.map (fun measurement => |measurement|)).sum = 0 := by
    apply List.sum_eq_zero
    intro x hx
    simp only [List.mem_map] at hx
    obtain ⟨m, hm, rfl⟩ := hx
    rw [h m hm]
    simp
  by_cases hp : ps.length = 0
  · simp [calculate_impact_of_usage_between_dates, hp]
  · simp [calculate_impact_of_usage_between_dates, hp, htot]

/-- C3 witness: one nonzero price series against the all-zero measurement
series [0, 0]. -/
theorem impact_zero_consumption_witness :
    calculate_impact_of_usage_between_dates [10] [0, 0] = none :=
  impact_zero_consumption [10] [0, 0] (by norm_num)

/-! ## Calendar model and time-window builders -/

/-- A calendar date (proleptic Gregorian, as Python's `datetime.date`). -/
structure Date where
  year : ℕ
  month : ℕ
  day : ℕ
deriving DecidableEq, Repr

/-- Gregorian leap-year rule, as used by Python's `calendar.monthrange`. -/
def isLeap (y : ℕ) : Bool :=
  (y % 4 == 0 && y % 100 != 0) || (y % 400 == 0)

/-- `calendar.monthrange(y, m)[-1]`: the number of days of month `m`
(1-based) in year `y`. -/
def daysInMonth (y m : ℕ) : ℕ :=
  if m = 2 then (if isLeap y then 29 else 28)
  else if m = 4 ∨ m = 6 ∨ m = 9 ∨ m = 11 then 30
  else 31

def daysInYear (y : ℕ) : ℕ := if isLeap y then 366 else 365

/-- Days in months `1..m` of year `y` (spec-side helper for day ordinals). -/
def cumDays (y m : ℕ) : ℕ :=
  ((List.range m).map (fun k => daysInMonth y (k + 1))).sum

/-- Days in all years before year `y` (counting from year 0). -/
def daysBeforeYear : ℕ → ℕ
  | 0 => 0
  | y + 1 => daysBeforeYear y + daysInYear y

/-- Absolute day ordinal of a date: dates differing by one calendar day have
ordinals differing by one. -/
def toOrdinal (d : Date) : ℕ :=
  daysBeforeYear d.year + cumDays d.year (d.month - 1) + d.day

/-- A structurally valid Gregorian date. -/
def isValidDate (d : Date) : Prop :=
  1 ≤ d.month ∧ d.month ≤ 12 ∧ 1 ≤ d.day ∧ d.day ≤ daysInMonth d.year d.month

instance (d : Date) : Decidable (isValidDate d) := by
  unfold isValidDate; infer_instance

/-- Embeds `start + relativedelta(days=-1)`: the previous calendar day. -/
def predDay (d : Date) : Date :=
  if 1 < d.day then ⟨d.year, d.month, d.day - 1⟩
  else if 1 < d.month then ⟨d.year, d.month - 1, daysInMonth d.year (d.month - 1)⟩
  else ⟨d.year - 1, 12, 31⟩

/-- Embeds `wanted_month_last_day + relativedelta(months=-1)`: step back one
month, clamping the day to the length of the resulting month. -/
def subOneMonth (d : Date) : Date :=
  if d.month = 1 then ⟨d.year - 1, 12, min d.day (daysInMonth (d.year - 1) 12)⟩
  else ⟨d.year, d.month - 1, min d.day (daysInMonth d.year (d.month - 1))⟩

lemma cumDays_succ (y k : ℕ) :
    cumDays y (k + 1) = cumDays y k + daysInMonth y (k + 1) := by
  simp [cumDays, List.range_succ]

lemma cumDays_twelve (y : ℕ) : cumDays y 12 = daysInYear y := by
  have hr : List.range 12 = [0, 1, 2, 3, 4, 5, 6, 7, 8, 9, 10, 11] := rfl
  cases h : isLeap y <;>
    simp [cumDays, hr, daysInMonth, daysInYear, h]

lemma daysInMonth_pos (y m : ℕ) : 1 ≤ daysInMonth y m := by
  unfold daysInMonth
  split_ifs <;> norm_num

/-- Stepping back one day decrements the day ordinal by exactly one and
stays inside the valid dates. -/
lemma predDay_correct (d : Date) (hv : isValidDate d) (hy : 1 ≤ d.year) :
    isValidDate (predDay d) ∧ toOrdinal (predDay d) + 1 = toOrdinal d := by
  obtain ⟨hm1, hm2, hd1, hd2⟩ := hv
  unfold predDay
  by_cases hd : 1 < d.day
  · rw [if_pos hd]
    constructor
    · simp only [isValidDate]
      omega
    · simp only [toOrdinal]
      omega
  · by_cases hm : 1 < d.month
    · rw [if_neg hd, if_pos hm]
      have hday : d.day = 1 := by omega
      have hk : d.month - 1 = (d.month - 2) + 1 := by omega
      constructor
      · simp only [isValidDate]
        refine ⟨by omega, by omega, daysInMonth_pos _ _, le_refl _⟩
      · simp only [toOrdinal]
        rw [hday, hk, cumDays_succ]
        have hk2 : (d.month - 2) + 1 - 1 = d.month - 2 := by omega
        rw [hk2]
        omega
    · rw [if_neg hd, if_neg hm]
      have hday : d.day = 1 := by omega
      have hmonth : d.month = 1 := by omega
      have h12 : daysInMonth (d.year - 1) 12 = 31 := by simp [daysInMonth]
      constructor
      · simp only [isValidDate]
        refine ⟨by omega, by omega, by omega, by simp [h12]⟩
      · simp only [toOrdinal]
        have hy1 : daysBeforeYear d.year =
            daysBeforeYear (d.year - 1) + daysInYear (d.year - 1) := by
          conv_lhs => rw [show d.year = (d.year - 1) + 1 from by omega]
          rfl
        have hc12 := cumDays_twelve (d.year - 1)
        have hcs : cumDays (d.year - 1) 12 =
            cumDays (d.year - 1) 11 + daysInMonth (d.year - 1) 12 :=
          cumDays_succ (d.year - 1) 11
        have h0 : cumDays d.year (1 - 1) = 0 := by simp [cumDays]
        have h11 : cumDays (d.year - 1) (12 - 1) = cumDays (d.year - 1) 11 := by
          norm_num
        rw [hmonth, hday]
        omega

/-- Zero-padded decimal, as in Python's default `str(date)` (ISO format). -/
def pad (w n : ℕ) : String :=
  String.mk (List.replicate (w - (toString n).length) '0') ++ toString n

/-- `f"{previous_day}"` / `f"{end}"`: ISO `YYYY-MM-DD` rendering of a date. -/
def isoDate (d : Date) : String :=
  pad 4 d.year ++ "-" ++ pad 2 d.month ++ "-" ++ pad 2 d.day

/-- The non-padded `f"{x.year}-{x.month}-{x.day}" + t` serialization used by
the daily window builder. -/
def dailyTs (d : Date) (t : String) : String :=
  toString d.year ++ "-" ++ toString d.month ++ "-" ++ toString d.day ++ t

/-- Embeds the window construction of `get_daily_measurements_by_month`
(api_client.py lines 69-80), parameterized by the current year (the code
reads it from `datetime.today()`; `wanted_month_first_day` is only used to
supply that year to `calendar.monthrange`). -/
def get_daily_measurements_window (year month : ℕ) : String × String :=
  let wanted_month_last_day : Date := ⟨year, month, daysInMonth year month⟩
  let previous_month := subOneMonth wanted_month_last_day
  let previous_month_last_day : Date :=
    ⟨previous_month.year, previous_month.month,
      daysInMonth previous_month.year previous_month.month⟩
  (dailyTs previous_month_last_day "T21:00:00.000Z",
   dailyTs wanted_month_last_day "T20:59:59.999Z")

/-- Spec-side: the last day of month `m` of year `y`. -/
def lastDayOfMonth (y m : ℕ) : Date := ⟨y, m, daysInMonth y m⟩

/-- Spec-side: the (year, month) pair one month before month `m` of year
`y`, with December→January rollover. -/
def prevMonthOf (y m : ℕ) : ℕ × ℕ := if m = 1 then (y - 1, 12) else (y, m - 1)

/-- Embeds the window construction of `get_hourly_measurements_between_dates`
(api_client.py lines 124-129). -/
def get_hourly_measurements_window (start e : Date) : String × String :=
  let previous_day := predDay start
  (isoDate previous_day ++ "T22:00:00+00:00", isoDate e ++ "T21:59:59+00:00")

/-- Embeds the window construction of `get_hourly_spot_prices_between_dates`
(api_client.py lines 149-154). -/
def get_hourly_spot_prices_window (start e : Date) : String × String :=
  let previous_day := predDay start
  (isoDate previous_day ++ "T22:00:00+00:00", isoDate e ++ "T21:59:59+00:00")

/-- C4: for every month 1 ≤ m ≤ 12 of year y the daily window begins at
21:00:00.000Z on the last day of the previous month (December of y-1 when
m = 1) and ends at 20:59:59.999Z on the last day of month m; the components
are serialized without zero-padding, as the legacy builder does. -/
theorem daily_window_boundaries (y m : ℕ) (_hm1 : 1 ≤ m) (_hm2 : m ≤ 12) :
    get_daily_measurements_window y m =
      (dailyTs (lastDayOfMonth (prevMonthOf y m).1 (prevMonthOf y m).2)
        "T21:00:00.000Z",
       dailyTs (lastDayOfMonth y m) "T20:59:59.999Z") := by
  by_cases hm : m = 1 <;>
    simp [get_daily_measurements_window, subOneMonth, lastDayOfMonth,
      prevMonthOf, hm]

/-- C4 witness: January 2024 rolls back to December 31, 2023. -/
theorem daily_window_boundaries_witness :
    get_daily_measurements_window 2024 1 =
      (dailyTs (lastDayOfMonth (prevMonthOf 2024 1).1 (prevMonthOf 2024 1).2)
        "T21:00:00.000Z",
       dailyTs (lastDayOfMonth 2024 1) "T20:59:59.999Z") :=
  daily_window_boundaries 2024 1 (by norm_num) (by norm_num)

/-- C5: for every valid date range [s, e] the hourly window begins at
22:00:00 UTC on the calendar day immediately before s (its day ordinal is
one less than that of s) and ends at 21:59:59 UTC on e. -/
theorem hourly_window_boundaries (s e : Date) (hv : isValidDate s)
    (hy : 1 ≤ s.year) :
    ∃ p : Date, isValidDate p ∧ toOrdinal p + 1 = toOrdinal s ∧
      get_hourly_measurements_window s e =
        (isoDate p ++ "T22:00:00+00:00", isoDate e ++ "T21:59:59+00:00") := by
  obtain ⟨h1, h2⟩ := predDay_correct s hv hy
  exact ⟨predDay s, h1, h2, rfl⟩

/-- C5 witness: the range from March 1 to March 31, 2023. -/
theorem hourly_window_boundaries_witness :
    ∃ p : Date, isValidDate p ∧ toOrdinal p + 1 = toOrdinal ⟨2023, 3, 1⟩ ∧
      get_hourly_measurements_window ⟨2023, 3, 1⟩ ⟨2023, 3, 31⟩ =
        (isoDate p ++ "T22:00:00+00:00",
         isoDate ⟨2023, 3, 31⟩ ++ "T21:59:59+00:00") :=
  hourly_window_boundaries ⟨2023, 3, 1⟩ ⟨2023, 3, 31⟩ (by decide) (by decide)

/-- C9: the hourly-measurements fetch and the hourly-spot-prices fetch build
identical begin/end request strings for every input date range. -/
theorem hourly_windows_equivalent (s e : Date) :
    get_hourly_measurements_window s e = get_hourly_spot_prices_window s e :=
  rfl

/-! ## Session validity (`is_session_valid`) -/

/-- Embeds `is_session_valid` (api_client.py lines 28-34).  Timestamps are
rationals in seconds; `timedelta(hours=1)` is 3600.  The latest login time
is `none` before any successful login. -/
def is_session_valid (latest_login_time : Option ℚ) (now : ℚ) : Bool :=
  match latest_login_time with
  | none => false
  | some t => decide (now - 3600 ≤ t ∧ t ≤ now)

/-- The class-level initializer `_latest_login_time: datetime = None`
(api_client.py line 19). -/
def initial_latest_login_time : Option ℚ := none

/-- C6: with a recorded login time t, the session check succeeds exactly
when now lies in the closed interval [t, t + 3600]; in particular it fails
whenever now < t. -/
theorem session_validity_interval (t now : ℚ) :
    is_session_valid (some t) now = true ↔ (t ≤ now ∧ now ≤ t + 3600) := by
  simp only [is_session_valid, decide_eq_true_eq]
  constructor
  · rintro ⟨h1, h2⟩
    exact ⟨h2, by linarith⟩
  · rintro ⟨h1, h2⟩
    exact ⟨by linarith, h1⟩

/-- C10: before any login has been recorded the session check returns false
for every current time, rather than failing. -/
theorem session_invalid_before_login (now : ℚ) :
    is_session_valid initial_latest_login_time now = false :=
  rfl

/-! ## Contract base price (`get_contract_base_price`) -/

/-- One entry of a product's `components` list. -/
structure PriceComponent where
  is_base_price : Bool
  price : ℚ
deriving DecidableEq, Repr

/-- One entry of a contract's `products` list. -/
structure Product where
  components : List PriceComponent
deriving DecidableEq, Repr

/-- One entry of the `/contract/list` response. -/
structure Contract where
  products : List Product
deriving DecidableEq, Repr

/-- Embeds `get_contract_base_price` (api_client.py lines 186-192):
`contract_data[0]["products"][0]["components"]` followed by
`next(filter(lambda c: c["is_base_price"], ...))`.  Python's `IndexError`
and `StopIteration` are both modelled as `none`. -/
def get_contract_base_price (contract_data : List Contract) : Option ℚ :=
  match contract_data with
  | [] => none
  | contract :: _ =>
    match contract.products with
    | [] => none
    | product :: _ =>
      ((product.components.filter
        (fun component => component.is_base_price)).head?).map
          (fun component => component.price)

/-- C7: over the first contract's first product, if exactly one component is
flagged as base price the lookup returns that component's price, and if no
component is flagged it fails (`none`, the spec's `NotFoundError`). -/
theorem base_price_lookup (contract_data : List Contract)
    (contract : Contract) (product : Product)
    (hc : contract_data.head? = some contract)
    (hp : contract.products.head? = some product) :
    (∀ component : PriceComponent,
      product.components.filter (fun x => x.is_base_price) = [component] →
        get_contract_base_price contract_data = some component.price) ∧
    ((∀ component ∈ product.components, component.is_base_price = false) →
      get_contract_base_price contract_data = none) := by
  cases contract_data with
  | nil => simp at hc
  | cons c0 rest =>
    simp only [List.head?_cons, Option.some.injEq] at hc
    subst hc
    cases hcp : c0.products with
    | nil => rw [hcp] at hp; simp at hp
    | cons p0 prest =>
      rw [hcp] at hp
      simp only [List.head?_cons, Option.some.injEq] at hp
      subst hp
      constructor
      · intro component hfil
        simp [get_contract_base_price, hcp, hfil]
      · intro hall
        have hnil : p0.components.filter (fun x => x.is_base_price) = [] := by
          rw [List.filter_eq_nil_iff]
          intro a ha
          simp [hall a ha]
        simp [get_contract_base_price, hcp, hnil]

/-- C7 witness: a single flagged component of price 5 is found; with the
flag cleared the lookup fails. -/
theorem base_price_lookup_witness :
    get_contract_base_price [⟨[⟨[⟨true, 5⟩]⟩]⟩] = some 5 ∧
    get_contract_base_price [⟨[⟨[⟨false, 7⟩]⟩]⟩] = none := by
  constructor
  · exact (base_price_lookup [⟨[⟨[⟨true, 5⟩]⟩]⟩] ⟨[⟨[⟨true, 5⟩]⟩]⟩ ⟨[⟨true, 5⟩]⟩
      rfl rfl).1 ⟨true, 5⟩ rfl
  · exact (base_price_lookup [⟨[⟨[⟨false, 7⟩]⟩]⟩] ⟨[⟨[⟨false, 7⟩]⟩]⟩ ⟨[⟨false, 7⟩]⟩
      rfl rfl).2 (by intro c hc; simp at hc; rw [hc])

/-! ## Response cache -/

/-- Modelled from the spec: the `@cached(cache=TTLCache(maxsize=..., ttl=3600))`
decorators (api_client.py lines 68, 98, 123, 148, 172) delegate to the
external `cachetools` library, which is not part of this repository; the
cache semantics below follow spec sections 3 (CacheEntry) and 4.4: entries
keyed by the argument tuple, bounded capacity with least-recently-used
order, a fixed TTL from insertion, and an entry older than its TTL never
returned. -/
structure CacheState (α β : Type) where
  entries : List (α × β × ℚ)

/-- The fixed one-hour TTL (`ttl=3600`). -/
def cacheTTL : ℚ := 3600

/-- Modelled from the spec: lookup of key `k` at time `now`; an entry whose
age has reached the TTL is treated as absent. -/
def cacheLookup {α β : Type} [DecidableEq α] (st : CacheState α β) (k : α)
    (now : ℚ) : Option β :=
  match st.entries.find? (fun e => decide (e.1 = k)) with
  | some e => if now < e.2.2 + cacheTTL then some e.2.1 else none
  | none => none

/-- Modelled from the spec: a memoized fetch.  On a hit the stored response
is returned with zero upstream requests; on a miss the upstream function is
called once and the result stored at the most-recent position, keeping at
most `capacity` entries. -/
def cachedFetch {α β : Type} [DecidableEq α] (upstream : α → β)
    (capacity : ℕ) (st : CacheState α β) (k : α) (now : ℚ) :
    β × CacheState α β × ℕ :=
  match cacheLookup st k now with
  | some v => (v, st, 0)
  | none =>
    let v := upstream k
    (v, ⟨((k, v, now) ::
      st.entries.filter (fun e => decide (¬ e.1 = k))).take capacity⟩, 1)

/-- C8: two consecutive calls with the same key, the second within the
one-hour TTL of the first and with a nonzero capacity, issue exactly one
upstream request: the first call fetches, the second returns the stored
response with no upstream call. -/
theorem cache_idempotence {α β : Type} [DecidableEq α] (upstream : α → β)
    (capacity : ℕ) (st : CacheState α β) (k : α) (t1 t2 : ℚ)
    (hmiss : cacheLookup st k t1 = none) (hcap : 1 ≤ capacity)
    (_hle : t1 ≤ t2) (httl : t2 < t1 + cacheTTL) :
    let r1 := cachedFetch upstream capacity st k t1
    let r2 := cachedFetch upstream capacity r1.2.1 k t2
    r1.2.2 = 1 ∧ r2.2.2 = 0 ∧ r2.1 = r1.1 ∧ r1.1 = upstream k := by
  intro r1 r2
  obtain ⟨c, hc⟩ : ∃ c, capacity = c + 1 := ⟨capacity - 1, by omega⟩
  have hr1 : r1 = (upstream k,
      ⟨(k, upstream k, t1) ::
        (st.entries.filter (fun e => decide (¬ e.1 = k))).take c⟩, 1) := by
    simp only [r1, cachedFetch, hmiss, hc, List.take_succ_cons]
  have hhit : cacheLookup r1.2.1 k t2 = some (upstream k) := by
    rw [hr1]
    simp [cacheLookup, List.find?_cons, httl]
  have hr2 : r2 = (upstream k, r1.2.1, 0) := by
    simp only [r2, cachedFetch, hhit]
  rw [hr1] at hr2 ⊢
  rw [hr2]
  simp [hr1]

/-- C8 witness: key 0 fetched at time 0 and again at time 1800 against an
empty cache of capacity 4. -/
theorem cache_idempotence_witness :
    let r1 := cachedFetch (fun n : ℕ => n + 1) 4 ⟨[]⟩ 0 0
    let r2 := cachedFetch (fun n : ℕ => n + 1) 4 r1.2.1 0 1800
    r1.2.2 = 1 ∧ r2.2.2 = 0 ∧ r2.1 = r1.1 ∧ r1.1 = 0 + 1 :=
  cache_idempotence (fun n : ℕ => n + 1) 4 ⟨[]⟩ 0 0 1800 rfl
    (by norm_num) (by norm_num) (by norm_num [cacheTTL])
